import Mathlib

/-!
# A verification model of the Telegram message-scheduler bot (`bot.py`)

This file gives a shallow embedding of the scheduling and delivery engine of
the repository's single source file `bot.py`:

* the authoring conversation state machine (`handle_conversation`,
  `handle_cancel`, `handle_schedule_message_start`),
* the job store (a MongoDB collection, modelled as a list of documents with a
  fresh-id counter),
* the scheduler registry of the `schedule` library (armed entries with a
  computed `next_run` instant),
* the delivery executor (`send_scheduled_message`),
* the recovery reconciler (`load_and_reschedule_jobs`),
* the stop-button handler (`handle_button_click`, `stop_` branch).

Time is modelled as an integer count of microseconds on the timeline
(naive local `datetime`s).  A civil timestamp `Y-M-D h:m:s` is mapped to the
timeline with the standard days-from-civil computation, so that Python's
field-lexicographic comparison of valid `datetime` values coincides with
integer comparison of the encodings.  `datetime.now()` is a parameter `now`
(microsecond precision).

External collaborators (Telegram transport, Mongo availability, admin oracle)
are parameters: the transport is a record holding the live delivered
instances and two failure flags (send / delete), the admin oracle a boolean.
-/

set_option autoImplicit false

namespace Bot

/-! ## Characters, digits, Python `str` helpers -/

def isDig (c : Char) : Bool := '0' ≤ c && c ≤ '9'

def digVal (c : Char) : Nat := c.toNat - 48

def allDigits (cs : List Char) : Bool := cs.all isDig

def digitsVal (cs : List Char) : Nat := cs.foldl (fun a c => a * 10 + digVal c) 0

/-- Python `int(text)` on an already-stripped string: optional sign followed by
decimal digits.  (Python additionally accepts underscores between digits and
non-ASCII decimal digits; no input relevant here uses those.) -/
def pyParseInt (s : String) : Option Int :=
  match s.toList with
  | [] => none
  | c :: rest =>
    if c = '+' then
      if rest ≠ [] && allDigits rest then some (digitsVal rest : Int) else none
    else if c = '-' then
      if rest ≠ [] && allDigits rest then some (-(digitsVal rest : Int)) else none
    else
      if allDigits (c :: rest) then some (digitsVal (c :: rest) : Int) else none

/-- Python `str.strip()` (whitespace at both ends; the ASCII whitespace set
suffices for the inputs of this system). -/
def pyStrip (s : String) : String :=
  String.mk (((s.toList.dropWhile Char.isWhitespace).reverse.dropWhile
    Char.isWhitespace).reverse)

def lowerChar (c : Char) : Char :=
  if 'A' ≤ c && c ≤ 'Z' then Char.ofNat (c.toNat + 32) else c

/-- Python `str.lower()` (ASCII case folding suffices here). -/
def pyLower (s : String) : String := String.mk (s.toList.map lowerChar)

/-- Python `str.startswith(p)`. -/
def startsWithStr (s p : String) : Bool := p.toList.isPrefixOf s.toList

/-- Python `str.split()` with no argument: split on runs of whitespace,
ignoring leading/trailing whitespace. -/
def pySplitWsAux : List Char → List Char → List String
  | [], acc => if acc = [] then [] else [String.mk acc.reverse]
  | c :: rest, acc =>
    if c.isWhitespace then
      if acc = [] then pySplitWsAux rest []
      else String.mk acc.reverse :: pySplitWsAux rest []
    else pySplitWsAux rest (c :: acc)

def pySplitWs (s : String) : List String := pySplitWsAux s.toList []

/-- Python `text.split('|', 1)`: split at the first `'|'`.
Only used under the regex guard below, so a `'|'` is present. -/
def splitFirstPipe (s : String) : String × String :=
  let before := s.toList.takeWhile (fun c => c ≠ '|')
  let after := (s.toList.dropWhile (fun c => c ≠ '|')).drop 1
  (String.mk before, String.mk after)

/-- Python `re.match(r'.+\|.+', text)`: an anchored prefix match, so it
succeeds iff the first line of `text` contains a `'|'` preceded by at least
one character and followed by at least one character (`.` does not match a
newline).  The accumulator records whether a character has been seen. -/
def reMatchPipeAux : Bool → List Char → Bool
  | _, [] => false
  | seen, c :: rest =>
    if c = '\n' then false
    else if seen && c = '|' && (match rest with
      | r :: _ => decide (r ≠ '\n')
      | [] => false) then true
    else reMatchPipeAux true rest

def reMatchPipe (s : String) : Bool := reMatchPipeAux false s.toList

/-! ## Civil calendar and the timeline encoding -/

def isLeap (y : Nat) : Bool := y % 4 = 0 && (y % 100 ≠ 0 || y % 400 = 0)

def daysInMonth (y m : Nat) : Nat :=
  if m = 2 then (if isLeap y then 29 else 28)
  else if m = 4 || m = 6 || m = 9 || m = 11 then 30
  else 31

/-- Day serial number of a civil date (valid for `y ≥ 1`); the standard
days-from-civil computation, with an arbitrary (consistent) epoch. -/
def daysFromCivil (y m d : Nat) : Nat :=
  let y' := if m ≤ 2 then y - 1 else y
  let era := y' / 400
  let yoe := y' - era * 400
  let doy := (153 * (if 2 < m then m - 3 else m + 9) + 2) / 5 + d - 1
  let doe := yoe * 365 + yoe / 4 - yoe / 100 + doy
  era * 146097 + doe

/-- A parsed `datetime` (microsecond field is always 0 for values produced by
`strptime` with the `%Y-%m-%d %H:%M:%S` format). -/
structure DT where
  year : Nat
  month : Nat
  day : Nat
  hour : Nat
  minute : Nat
  second : Nat
deriving DecidableEq, Repr

def microsPerDay : Int := 86400000000

/-- Timeline encoding of a parsed datetime, in microseconds.  Lexicographic
comparison of valid `datetime` values equals integer comparison here. -/
def toMicros (t : DT) : Int :=
  ((daysFromCivil t.year t.month t.day * 86400
    + t.hour * 3600 + t.minute * 60 + t.second) * 1000000 : Nat)

/-- Microseconds since midnight of a parsed datetime; this is what
`dt.strftime("%H:%M:%S")` / `time_str.split()[1]` convey to `schedule`'s
`.at(...)`. -/
def todMicros (t : DT) : Int :=
  ((t.hour * 3600 + t.minute * 60 + t.second) * 1000000 : Nat)

/-! ### `datetime.strptime(text, "%Y-%m-%d %H:%M:%S")`

Each directive is modelled by the exact regular-expression alternation CPython
`_strptime` uses, including the one-or-two-digit forms; the whitespace in the
format matches a run of whitespace.  Construction of the `datetime` raises for
an out-of-range day (e.g. Feb 30) or year 0; the `except ValueError` caller
treats that like a parse failure, so it is folded into `none` here. -/

/-- `%Y`: exactly four digits. -/
def parseYear4 : List Char → Option (Nat × List Char)
  | a :: b :: c :: d :: rest =>
    if isDig a && isDig b && isDig c && isDig d then
      some (digVal a * 1000 + digVal b * 100 + digVal c * 10 + digVal d, rest)
    else none
  | _ => none

/-- `%m`: regex `1[0-2]|0[1-9]|[1-9]`. -/
def parseMonth : List Char → Option (Nat × List Char)
  | [] => none
  | c :: rest =>
    if c = '1' then
      match rest with
      | c2 :: rest2 =>
        if '0' ≤ c2 && c2 ≤ '2' then some (10 + digVal c2, rest2)
        else some (1, rest)
      | [] => some (1, [])
    else if c = '0' then
      match rest with
      | c2 :: rest2 => if '1' ≤ c2 && c2 ≤ '9' then some (digVal c2, rest2) else none
      | [] => none
    else if '2' ≤ c && c ≤ '9' then some (digVal c, rest)
    else none

/-- `%d`: regex `3[01]|[12]\d|0[1-9]|[1-9]`. -/
def parseDay : List Char → Option (Nat × List Char)
  | [] => none
  | c :: rest =>
    if c = '3' then
      match rest with
      | c2 :: rest2 =>
        if c2 = '0' || c2 = '1' then some (30 + digVal c2, rest2) else some (3, rest)
      | [] => some (3, [])
    else if c = '1' || c = '2' then
      match rest with
      | c2 :: rest2 => if isDig c2 then some (digVal c * 10 + digVal c2, rest2) else some (digVal c, rest)
      | [] => some (digVal c, [])
    else if c = '0' then
      match rest with
      | c2 :: rest2 => if '1' ≤ c2 && c2 ≤ '9' then some (digVal c2, rest2) else none
      | [] => none
    else if '4' ≤ c && c ≤ '9' then some (digVal c, rest)
    else none

/-- `%H`: regex `2[0-3]|[0-1]\d|\d`. -/
def parseHour : List Char → Option (Nat × List Char)
  | [] => none
  | c :: rest =>
    if c = '2' then
      match rest with
      | c2 :: rest2 =>
        if '0' ≤ c2 && c2 ≤ '3' then some (20 + digVal c2, rest2) else some (2, rest)
      | [] => some (2, [])
    else if c = '0' || c = '1' then
      match rest with
      | c2 :: rest2 => if isDig c2 then some (digVal c * 10 + digVal c2, rest2) else some (digVal c, rest)
      | [] => some (digVal c, [])
    else if isDig c then some (digVal c, rest)
    else none

/-- `%M` and `%S`: regex `[0-5]\d|\d`. -/
def parseMinSec : List Char → Option (Nat × List Char)
  | [] => none
  | c :: rest =>
    match rest with
    | c2 :: rest2 =>
      if '0' ≤ c && c ≤ '5' && isDig c2 then some (digVal c * 10 + digVal c2, rest2)
      else if isDig c then some (digVal c, rest)
      else none
    | [] => if isDig c then some (digVal c, []) else none

/-- A literal character of the format string. -/
def lit (ch : Char) : List Char → Option (List Char)
  | c :: rest => if c = ch then some rest else none
  | [] => none

/-- A whitespace character in the format string matches a run `\s+`. -/
def wsRun : List Char → Option (List Char)
  | c :: rest => if c.isWhitespace then some (rest.dropWhile Char.isWhitespace) else none
  | [] => none

def parseTimestamp (s : String) : Option DT := do
  let (y, cs) ← parseYear4 s.toList
  let cs ← lit '-' cs
  let (mo, cs) ← parseMonth cs
  let cs ← lit '-' cs
  let (d, cs) ← parseDay cs
  let cs ← wsRun cs
  let (h, cs) ← parseHour cs
  let cs ← lit ':' cs
  let (mi, cs) ← parseMinSec cs
  let cs ← lit ':' cs
  let (sec, cs) ← parseMinSec cs
  if cs = [] && 1 ≤ y && d ≤ daysInMonth y mo then
    some ⟨y, mo, d, h, mi, sec⟩
  else none

/-! ### `schedule`'s `.at(time_str)` for a daily job

The library accepts `time_str` only when it matches
`^([0-2]\d:)?[0-5]\d:[0-5]\d$` (two-digit components), then builds a
`datetime.time`, which raises for an hour above 23; any failure propagates as
an exception out of the arming call.  `parseTod` returns the accepted
time-of-day in microseconds, `none` when `.at` would raise. -/
def parseTod (s : String) : Option Int :=
  match s.toList with
  | [h1, h2, ':', m1, m2, ':', s1, s2] =>
    if '0' ≤ h1 && h1 ≤ '2' && isDig h2 && '0' ≤ m1 && m1 ≤ '5' && isDig m2
        && '0' ≤ s1 && s1 ≤ '5' && isDig s2 then
      let h := digVal h1 * 10 + digVal h2
      if h ≤ 23 then
        some (((h * 3600 + (digVal m1 * 10 + digVal m2) * 60
          + (digVal s1 * 10 + digVal s2)) * 1000000 : Nat))
      else none
    else none
  | [a1, a2, ':', b1, b2] =>
    -- two components are read as HH:MM for a daily job
    if '0' ≤ a1 && a1 ≤ '5' && isDig a2 && '0' ≤ b1 && b1 ≤ '5' && isDig b2 then
      let h := digVal a1 * 10 + digVal a2
      if h ≤ 23 then
        some (((h * 3600 + (digVal b1 * 10 + digVal b2) * 60) * 1000000 : Nat))
      else none
    else none
  | _ => none

/-- First fire instant of `schedule.every().day.at(tod)` armed at instant
`now`: today at `tod` if that is still strictly ahead, else tomorrow at
`tod`. -/
def dailyNext (now tod : Int) : Int :=
  let r := now % microsPerDay
  now - r + (if r < tod then tod else microsPerDay + tod)

/-! ## Job documents and the store

A Mongo document of the `messages` collection.  `Option` models an absent (or
`None`) field; `sent` is absent on freshly authored jobs.  `schedule_time` is
stored as the raw text the user typed, exactly as in the source. -/

inductive MediaKind | photo | video
deriving DecidableEq, Repr

structure BtnDef where
  text : String
  url : String
deriving DecidableEq, Repr

structure JobDoc where
  id : Nat
  chat_id : Int
  schedule_name : Option String
  message_text : Option String
  schedule_time : Option String
  interval_seconds : Option Int
  media_type : Option MediaKind
  file_id : Option String
  access_hash : Option Int
  buttons : List BtnDef
  sent : Option Bool
  last_sent_telegram_message_id : Option Int
deriving DecidableEq, Repr

/-- Python truthiness of `message_doc.get("interval_seconds")`. -/
def intervalTruthy (d : JobDoc) : Bool :=
  match d.interval_seconds with
  | some n => n ≠ 0
  | none => false

/-- Python truthiness of the three media fields guarding the media branch of
`send_scheduled_message`. -/
def mediaTruthy (d : JobDoc) : Bool :=
  d.media_type.isSome
    && (match d.file_id with | some s => s ≠ "" | none => false)
    && (match d.access_hash with | some a => a ≠ 0 | none => false)

/-- `int(message_doc["file_id"])` succeeds (the value is a decimal numeral,
as produced by `str(photo.id)`). -/
def fileIdNumeric (d : JobDoc) : Bool :=
  match d.file_id with
  | some s => s.toList ≠ [] && allDigits s.toList
  | none => false

/-- The collection plus Mongo's id assignment. -/
structure Store where
  docs : List JobDoc
  nextId : Nat
deriving DecidableEq, Repr

/-- `collection.find_one({"_id": i})`. -/
def findOne (docs : List JobDoc) (i : Nat) : Option JobDoc :=
  docs.find? (fun d => d.id == i)

/-- `collection.update_one(filter, {"$set": ...})`: updates the first
matching document. -/
def updateFirst (p : JobDoc → Bool) (f : JobDoc → JobDoc) : List JobDoc → List JobDoc
  | [] => []
  | d :: rest => if p d then f d :: rest else d :: updateFirst p f rest

/-- `collection.delete_one(filter)`: atomically removes the first matching
document, returning the new list and `deleted_count`. -/
def deleteFirst (p : JobDoc → Bool) : List JobDoc → List JobDoc × Nat
  | [] => ([], 0)
  | d :: rest =>
    if p d then (rest, 1)
    else
      let (rest', n) := deleteFirst p rest
      (d :: rest', n)

/-! ## The scheduler registry (`schedule` library)

An armed entry: the tag `message_<id>`, the chat and message-id kwargs the
`do` closure captured, the period kind, and the computed `next_run`. -/

inductive SchedKind
  | everySeconds (n : Int)
  | dailyAt (tod : Int)
deriving DecidableEq, Repr

structure SchedEntry where
  tag : Nat
  chatId : Int
  kind : SchedKind
  next_run : Int
deriving DecidableEq, Repr

/-- `schedule.every(n).seconds.do(...)` at instant `now`. -/
def armEvery (now : Int) (n : Int) (tag : Nat) (chatId : Int) : SchedEntry :=
  ⟨tag, chatId, .everySeconds n, now + n * 1000000⟩

/-- `schedule.every().day.at(tod).do(...)` at instant `now` (first run). -/
def armDaily (now : Int) (tod : Int) (tag : Nat) (chatId : Int) : SchedEntry :=
  ⟨tag, chatId, .dailyAt tod, dailyNext now tod⟩

/-- `schedule.clear(f"message_<id>")`. -/
def scheduleClear (tag : Nat) (es : List SchedEntry) : List SchedEntry :=
  es.filter (fun e => e.tag ≠ tag)

/-- `next_run` recomputed after a (non-cancelled) run at instant `now`. -/
def rescheduleNext (now : Int) : SchedKind → Int
  | .everySeconds n => now + n * 1000000
  | .dailyAt tod => now - now % microsPerDay + microsPerDay + tod

/-! ## Authoring sessions (`self.user_states`) -/

inductive ConvState
  | SCHEDULE_NAME | MESSAGE_TEXT | MEDIA | BUTTONS | INTERVAL
deriving DecidableEq, Repr

/-- The mutable `data` dict of a session: the draft job document. -/
structure DraftData where
  chat_id : Int
  schedule_name : Option String
  message_text : Option String
  schedule_time : Option String
  interval_seconds : Option Int
  media_type : Option MediaKind
  file_id : Option String
  access_hash : Option Int
  buttons : List BtnDef
deriving DecidableEq, Repr

structure UserState where
  chat_id : Int
  state : ConvState
  data : DraftData
deriving DecidableEq, Repr

/-- `self.user_states`, keyed by `user_id`. -/
def UserStates := Int → Option UserState

def setState (m : UserStates) (u : Int) (v : Option UserState) : UserStates :=
  fun x => if x = u then v else m x

def freshDraft (chatId : Int) : DraftData :=
  ⟨chatId, none, none, none, none, none, none, none, []⟩

/-- `collection.insert_one(state_data['data'])`: the inserted document has no
`sent` and no `last_sent_telegram_message_id` field.  Returns the store and
the assigned id. -/
def insertOne (st : Store) (d : DraftData) : Store × Nat :=
  let doc : JobDoc :=
    ⟨st.nextId, d.chat_id, d.schedule_name, d.message_text, d.schedule_time,
      d.interval_seconds, d.media_type, d.file_id, d.access_hash, d.buttons,
      none, none⟩
  (⟨st.docs ++ [doc], st.nextId + 1⟩, st.nextId)

/-! ## The conversation handler (`handle_conversation`) -/

/-- An inbound Telegram message: optional text, optional photo / video
(Telethon file id as its decimal string, and the access hash). -/
structure Msg where
  text : Option String
  photo : Option (String × Int)
  video : Option (String × Int)
deriving DecidableEq, Repr

/-- The distinct `event.respond(...)` messages of the handlers (wording
abbreviated; `buttonsPrompt` stands for the three variants after a media
skip / photo / video). -/
inductive Resp
  | emptyName | textPrompt
  | emptyText | mediaPrompt
  | buttonsPrompt | mediaInvalid
  | intervalPrompt
  | buttonAdded | emptyUrl | badScheme | malformedUrl | badlyMalformedUrl
  | badButtonFormat
  | intervalNotPositive | pastTime | invalidIntervalInput
  | scheduledRecurring | scheduledOneShot
  | errorOccurred
  | cancelled | noActiveProcess
deriving DecidableEq, Repr

structure ConvResult where
  states : UserStates
  store : Store
  sched : List SchedEntry
  resp : Option Resp

/-- `urlparse(url).netloc` for a URL whose lower-casing starts with
`http://` or `https://`: the text after the first `"://"` up to the first of
`/`, `?`, `#`. -/
def netlocOf (url : String) : String :=
  let after := (url.toList.dropWhile (fun c => c ≠ ':')).drop 3
  String.mk (after.takeWhile (fun c => c ≠ '/' && c ≠ '?' && c ≠ '#'))

/-- `urlparse` raises `ValueError` ("Invalid IPv6 URL") on a mismatched
bracket in the netloc. -/
def netlocBracketError (nl : String) : Bool :=
  (nl.toList.contains '[' && !nl.toList.contains ']')
    || (nl.toList.contains ']' && !nl.toList.contains '[')

/-- The body of `handle_conversation` once the session guard has passed:
dispatch on the session state.  `now` is `datetime.now()` in microseconds. -/
def conv_step (now : Int) (userId chatId : Int) (msg : Msg) (sd : UserState)
    (states : UserStates) (store : Store) (sched : List SchedEntry) : ConvResult :=
  match sd.state with
  | .SCHEDULE_NAME =>
    let name := pyStrip (msg.text.getD "")
    if name = "" then ⟨states, store, sched, some .emptyName⟩
    else
      let sd' : UserState :=
        ⟨sd.chat_id, .MESSAGE_TEXT, {sd.data with schedule_name := some name}⟩
      ⟨setState states userId (some sd'), store, sched, some .textPrompt⟩
  | .MESSAGE_TEXT =>
    let text := pyStrip (msg.text.getD "")
    if text = "" then ⟨states, store, sched, some .emptyText⟩
    else
      let sd' : UserState :=
        ⟨sd.chat_id, .MEDIA, {sd.data with message_text := some text}⟩
      ⟨setState states userId (some sd'), store, sched, some .mediaPrompt⟩
  | .MEDIA =>
    -- `if event.message.text and event.message.text.strip().lower() == 'skip'`
    if (match msg.text with
        | some t => t ≠ "" && pyLower (pyStrip t) == "skip"
        | none => false) then
      let sd' : UserState := ⟨sd.chat_id, .BUTTONS, sd.data⟩
      ⟨setState states userId (some sd'), store, sched, some .buttonsPrompt⟩
    else
      match msg.photo with
      | some (fid, ah) =>
        let data' :=
          {sd.data with
            media_type := some .photo,
            file_id := some fid,
            access_hash := some ah}
        let sd' : UserState := ⟨sd.chat_id, .BUTTONS, data'⟩
        ⟨setState states userId (some sd'), store, sched, some .buttonsPrompt⟩
      | none =>
        match msg.video with
        | some (fid, ah) =>
          let data' :=
            {sd.data with
              media_type := some .video,
              file_id := some fid,
              access_hash := some ah}
          let sd' : UserState := ⟨sd.chat_id, .BUTTONS, data'⟩
          ⟨setState states userId (some sd'), store, sched, some .buttonsPrompt⟩
        | none => ⟨states, store, sched, some .mediaInvalid⟩
  | .BUTTONS =>
    let text := pyStrip (msg.text.getD "")
    if pyLower text = "skip" then
      let sd' : UserState := ⟨sd.chat_id, .INTERVAL, sd.data⟩
      ⟨setState states userId (some sd'), store, sched, some .intervalPrompt⟩
    else if reMatchPipe text then
      let parts := splitFirstPipe text
      let label := pyStrip parts.1
      let url := pyStrip parts.2
      if url = "" then ⟨states, store, sched, some .emptyUrl⟩
      else if !(startsWithStr (pyLower url) "http://"
            || startsWithStr (pyLower url) "https://")
          && !(startsWithStr (pyLower url) "tg://") then
        ⟨states, store, sched, some .badScheme⟩
      else if startsWithStr (pyLower url) "http://"
          || startsWithStr (pyLower url) "https://" then
        if netlocBracketError (netlocOf url) then
          ⟨states, store, sched, some .badlyMalformedUrl⟩
        else if netlocOf url = "" then
          ⟨states, store, sched, some .malformedUrl⟩
        else
          let data' := {sd.data with buttons := sd.data.buttons ++ [⟨label, url⟩]}
          let sd' : UserState := ⟨sd.chat_id, .BUTTONS, data'⟩
          ⟨setState states userId (some sd'), store, sched, some .buttonAdded⟩
      else
        -- a tg:// link skips the urlparse validation
        let data' := {sd.data with buttons := sd.data.buttons ++ [⟨label, url⟩]}
        let sd' : UserState := ⟨sd.chat_id, .BUTTONS, data'⟩
        ⟨setState states userId (some sd'), store, sched, some .buttonAdded⟩
    else ⟨states, store, sched, some .badButtonFormat⟩
  | .INTERVAL =>
    let text := pyStrip (msg.text.getD "")
    match pyParseInt text with
    | some n =>
      if n ≤ 0 then ⟨states, store, sched, some .intervalNotPositive⟩
      else
        -- finalize as a recurring job
        let data' := {sd.data with interval_seconds := some n, schedule_time := none}
        let ins := insertOne store data'
        ⟨setState states userId none, ins.1,
          sched ++ [armEvery now n ins.2 chatId], some .scheduledRecurring⟩
    | none =>
      match parseTimestamp text with
      | some dt =>
        if toMicros dt < now then ⟨states, store, sched, some .pastTime⟩
        else
          -- finalize as a one-shot job
          let data' := {sd.data with interval_seconds := none, schedule_time := some text}
          let ins := insertOne store data'
          match parseTod ((pySplitWs text).getD 1 "") with
          | some tod =>
            ⟨setState states userId none, ins.1,
              sched ++ [armDaily now tod ins.2 chatId], some .scheduledOneShot⟩
          | none =>
            -- `schedule...at(...)` raises; the outer except keeps the session
            -- (with its mutated data) and the already-inserted document
            ⟨setState states userId (some ⟨sd.chat_id, sd.state, data'⟩),
              ins.1, sched, some .errorOccurred⟩
      | none => ⟨states, store, sched, some .invalidIntervalInput⟩

def handle_conversation (now : Int) (userId chatId : Int) (msg : Msg)
    (states : UserStates) (store : Store) (sched : List SchedEntry) : ConvResult :=
  match states userId with
  | none => ⟨states, store, sched, none⟩
  | some sd =>
    if sd.chat_id ≠ chatId then ⟨states, store, sched, none⟩
    else conv_step now userId chatId msg sd states store sched

/-- `/cancel`. -/
def handle_cancel (userId : Int) (states : UserStates) : UserStates × Resp :=
  match states userId with
  | some _ => (setState states userId none, .cancelled)
  | none => (states, .noActiveProcess)

/-- `/schedule_message`: creates (or supersedes) the session when the admin
oracle grants access. -/
def handle_schedule_message_start (isAdm : Bool) (userId chatId : Int)
    (states : UserStates) : UserStates :=
  if isAdm then
    setState states userId (some ⟨chatId, .SCHEDULE_NAME, freshDraft chatId⟩)
  else states

/-- Feed a sequence of messages from one principal in one chat through
`handle_conversation`, threading states, store and scheduler. -/
def runMsgs (now : Int) (userId chatId : Int) :
    List Msg → UserStates → Store → List SchedEntry → ConvResult
  | [], states, store, sched => ⟨states, store, sched, none⟩
  | m :: rest, states, store, sched =>
    let r := handle_conversation now userId chatId m states store sched
    match rest with
    | [] => r
    | _ => runMsgs now userId chatId rest r.states r.store r.sched

def textMsg (s : String) : Msg := ⟨some s, none, none⟩

/-- A schedule-step input that is valid per the spec: a positive integer
(recurring), or a strictly future timestamp in the fixed zero-padded format
`YYYY-MM-DD HH:MM:SS` (whose time-of-day token `schedule`'s `.at` accepts). -/
def validScheduleInput (now : Int) (s : String) : Bool :=
  match pyParseInt (pyStrip s) with
  | some n => 0 < n
  | none =>
    match parseTimestamp (pyStrip s) with
    | some dt =>
      now < toMicros dt && (parseTod ((pySplitWs (pyStrip s)).getD 1 "")).isSome
    | none => false

/-! ## The delivery executor (`send_scheduled_message`)

The Telegram transport: the next id it will assign to a sent message, the
live delivered instances `(chat, message id)`, and two failure switches — a
`failDelete` makes `delete_messages` raise (the handler swallows it), a
`failSend` makes `send_message` raise (any transport send error, including a
rejected button URL). -/

structure Transport where
  nextMsgId : Int
  live : List (Int × Int)
  failSend : Bool
  failDelete : Bool
deriving DecidableEq, Repr

/-- The async `send_message()` body: document lookup, defensive re-check,
delete of the previous instance (failure swallowed), media preparation
(`int(file_id)` can raise), send, then the two store updates.  Any raise
after the delete step leaves the store untouched. -/
def deliverAsync (chatId : Int) (msgId : Nat) (store : Store) (tr : Transport) :
    Store × Transport :=
  match findOne store.docs msgId with
  | none => (store, tr)
  | some doc =>
    if doc.sent = some true && !intervalTruthy doc then (store, tr)
    else
      -- step 2: delete the previous instance, if recorded
      let tr1 :=
        match doc.last_sent_telegram_message_id with
        | some lid =>
          if tr.failDelete then tr
          else {tr with live := tr.live.filter (fun p => !(p.1 = chatId && p.2 = lid))}
        | none => tr
      -- media preparation: `int(message_doc["file_id"])` raises on a
      -- non-numeric value, aborting before the send
      if mediaTruthy doc && !fileIdNumeric doc then (store, tr1)
      -- step 3: send (raises when the transport rejects it)
      else if tr1.failSend then (store, tr1)
      else
        let newId := tr1.nextMsgId
        let tr2 : Transport :=
          {tr1 with nextMsgId := newId + 1, live := tr1.live ++ [(chatId, newId)]}
        -- step 4: record the new instance id
        let docs1 := updateFirst (fun d => d.id == msgId)
          (fun d => {d with last_sent_telegram_message_id := some newId}) store.docs
        -- step 5: a one-shot job is marked sent
        let docs2 :=
          if !intervalTruthy doc then
            updateFirst (fun d => d.id == msgId) (fun d => {d with sent := some true}) docs1
          else docs1
        ({store with docs := docs2}, tr2)

structure DeliverResult where
  store : Store
  transport : Transport
  cancel : Bool

/-- The scheduled job function: it dispatches the async body
(`run_coroutine_threadsafe`) and then synchronously re-fetches the document
to decide whether to return `schedule.CancelJob`.  The async body is run to
completion first here; the cancel decision only reads `interval_seconds` and
existence, which the async body never changes, so the interleaving does not
affect it.  (The `return schedule.CancelJob` inside the async body is a
coroutine result that the `schedule` library never sees.) -/
def send_scheduled_message (chatId : Int) (msgId : Nat) (store : Store)
    (tr : Transport) : DeliverResult :=
  let r := deliverAsync chatId msgId store tr
  let cancel :=
    match findOne r.1.docs msgId with
    | some d => !intervalTruthy d
    | none => false
  ⟨r.1, r.2, cancel⟩

/-- The dispatch loop running one due entry: the job runs, then the entry is
removed on `CancelJob` or rescheduled. -/
def runJob (now : Int) (e : SchedEntry) (store : Store) (tr : Transport) :
    Option SchedEntry × Store × Transport :=
  let r := send_scheduled_message e.chatId e.tag store tr
  if r.cancel then (none, r.store, r.transport)
  else (some {e with next_run := rescheduleNext now e.kind}, r.store, r.transport)

/-! ## The recovery reconciler (`load_and_reschedule_jobs`) -/

/-- The Mongo query of `load_and_reschedule_jobs`: `interval_seconds` exists
non-null, or `schedule_time` exists non-null and `sent` is `False` or
absent. -/
def matchesQuery (d : JobDoc) : Bool :=
  d.interval_seconds.isSome || (d.schedule_time.isSome && !(d.sent = some true))

/-- What the reconciler does with one fetched document. -/
inductive RecAction
  | skip
  | markSent
  | armE (e : SchedEntry)
deriving DecidableEq, Repr

/-- The `elif time_str:` branch of the reconciler loop for one document. -/
def reconcileTime (now : Int) (d : JobDoc) (s : String) : RecAction :=
  match parseTimestamp s with
  | some dt =>
    if toMicros dt < now then
      -- past one-shot: dropped; marked sent unless already sent
      if d.sent = some true then .skip else .markSent
    else
      -- `.at(scheduled_dt.strftime("%H:%M:%S"))`: always zero-padded
      .armE (armDaily now (todMicros dt) d.id d.chat_id)
  | none => .skip  -- strptime ValueError: logged, skipped

/-- One iteration of the reconciler loop (pure decision; the store update of
`markSent` is applied by `reconcile`).  `datetime.now()` is approximated by
the single instant `now` for the whole scan. -/
def reconcileDoc (now : Int) (d : JobDoc) : RecAction :=
  if d.chat_id = 0 then .skip
  else
    match d.interval_seconds with
    | some n =>
      if 0 < n then .armE (armEvery now n d.id d.chat_id)
      else
        match d.schedule_time with
        | some s => reconcileTime now d s
        | none => .skip
    | none =>
      match d.schedule_time with
      | some s => reconcileTime now d s
      | none => .skip

def markSentDoc (d : JobDoc) : JobDoc := {d with sent := some true}

def reconcile (now : Int) : List JobDoc → List JobDoc → List SchedEntry →
    List JobDoc × List SchedEntry
  | [], docs, es => (docs, es)
  | d :: rest, docs, es =>
    match reconcileDoc now d with
    | .skip => reconcile now rest docs es
    | .markSent =>
      reconcile now rest (updateFirst (fun x => x.id == d.id) markSentDoc docs) es
    | .armE e => reconcile now rest docs (es ++ [e])

/-- Startup reconciliation: scan the query results and re-arm / retire.
It performs no transport call, so no delivery can happen during recovery. -/
def load_and_reschedule_jobs (now : Int) (st : Store) : Store × List SchedEntry :=
  let r := reconcile now (st.docs.filter matchesQuery) st.docs []
  (⟨r.1, st.nextId⟩, r.2)

/-! ## The stop button (`handle_button_click`, `stop_<id>` branch) -/

inductive ClickResp
  | adminAlert | notFound | stopped
deriving DecidableEq, Repr

structure ClickResult where
  store : Store
  sched : List SchedEntry
  resp : ClickResp
deriving DecidableEq, Repr

/-- The `stop_<id>` branch: admin check, then a single atomic
`delete_one({"_id": id, "chat_id": chat_id})`; only when a document was
deleted is the scheduler entry cleared. -/
def handle_button_click_stop (isAdm : Bool) (chatId : Int) (msgId : Nat)
    (store : Store) (sched : List SchedEntry) : ClickResult :=
  if !isAdm then ⟨store, sched, .adminAlert⟩
  else
    let del := deleteFirst (fun d => d.id == msgId && d.chat_id == chatId) store.docs
    if del.2 = 0 then ⟨store, sched, .notFound⟩
    else ⟨⟨del.1, store.nextId⟩, scheduleClear msgId sched, .stopped⟩

/-! ## Helper lemmas -/

@[simp] theorem setState_same (m : UserStates) (u : Int) (v : Option UserState) :
    setState m u v u = v := by
  simp [setState]

theorem setState_ne (m : UserStates) (u : Int) (v : Option UserState) (q : Int)
    (h : q ≠ u) : setState m u v q = m q := by
  simp [setState, h]

theorem deleteFirst_no_match (p : JobDoc → Bool) (l : List JobDoc)
    (h : ∀ d ∈ l, p d = false) : deleteFirst p l = (l, 0) := by
  induction l with
  | nil => rfl
  | cons d rest ih =>
    have hd := h d (by simp)
    simp only [deleteFirst, hd, Bool.false_eq_true, if_false,
      ih (fun x hx => h x (by simp [hx]))]

theorem findOne_updateFirst (i : Nat) (f : JobDoc → JobDoc)
    (hf : ∀ d, (f d).id = d.id) (docs : List JobDoc) :
    findOne (updateFirst (fun d => d.id == i) f docs) i
      = (findOne docs i).map f := by
  induction docs with
  | nil => rfl
  | cons d rest ih =>
    by_cases hd : d.id = i
    · have h1 : (d.id == i) = true := beq_iff_eq.mpr hd
      have h2 : ((f d).id == i) = true := beq_iff_eq.mpr (by rw [hf d, hd])
      simp [updateFirst, findOne, List.find?, h1, h2]
    · have h1 : (d.id == i) = false := beq_eq_false_iff_ne.mpr hd
      simp only [updateFirst, h1, Bool.false_eq_true, if_false]
      simp only [findOne, List.find?, h1] at ih ⊢
      exact ih

theorem findOne_updateFirst_ne (i j : Nat) (f : JobDoc → JobDoc)
    (hf : ∀ d, (f d).id = d.id) (hij : j ≠ i) (docs : List JobDoc) :
    findOne (updateFirst (fun d => d.id == j) f docs) i = findOne docs i := by
  induction docs with
  | nil => rfl
  | cons d rest ih =>
    by_cases hd : d.id = j
    · have h1 : (d.id == j) = true := beq_iff_eq.mpr hd
      have h2 : ((f d).id == i) = false :=
        beq_eq_false_iff_ne.mpr (by rw [hf d, hd]; exact hij)
      have h3 : (d.id == i) = false := beq_eq_false_iff_ne.mpr (by rw [hd]; exact hij)
      simp [updateFirst, findOne, List.find?, h1, h2, h3]
    · have h1 : (d.id == j) = false := beq_eq_false_iff_ne.mpr hd
      simp only [updateFirst, h1, Bool.false_eq_true, if_false]
      simp only [findOne, List.find?] at ih ⊢
      cases h2 : (d.id == i) with
      | true => rfl
      | false => exact ih

theorem findOne_of_mem_nodup (docs : List JobDoc) (d : JobDoc)
    (hmem : d ∈ docs) (hnd : (docs.map JobDoc.id).Nodup) :
    findOne docs d.id = some d := by
  induction docs with
  | nil => cases hmem
  | cons a rest ih =>
    rcases List.mem_cons.mp hmem with h | h
    · simp [findOne, List.find?, h]
    · have hane : (a.id == d.id) = false := by
        refine beq_eq_false_iff_ne.mpr ?_
        intro hcontra
        have hdmem : d.id ∈ rest.map JobDoc.id := List.mem_map_of_mem _ h
        rw [List.map_cons, List.nodup_cons] at hnd
        exact hnd.1 (hcontra ▸ hdmem)
      have hrec := ih h (by rw [List.map_cons, List.nodup_cons] at hnd; exact hnd.2)
      simp only [findOne, List.find?, hane] at hrec ⊢
      exact hrec

theorem reconcile_entries_mono (now : Int) (l docs : List JobDoc)
    (es : List SchedEntry) (e : SchedEntry) (he : e ∈ es) :
    e ∈ (reconcile now l docs es).2 := by
  induction l generalizing docs es with
  | nil => exact he
  | cons d rest ih =>
    simp only [reconcile]
    cases reconcileDoc now d with
    | skip => exact ih docs es he
    | markSent => exact ih _ es he
    | armE e2 => exact ih docs (es ++ [e2]) (by simp [he])

theorem reconcile_entries_mem (now : Int) (l docs : List JobDoc)
    (es : List SchedEntry) (e : SchedEntry) :
    e ∈ (reconcile now l docs es).2
      ↔ e ∈ es ∨ ∃ d ∈ l, reconcileDoc now d = .armE e := by
  induction l generalizing docs es with
  | nil => simp [reconcile]
  | cons d rest ih =>
    simp only [reconcile]
    cases hact : reconcileDoc now d with
    | skip =>
      rw [ih]
      constructor
      · rintro (h | ⟨d2, hd2, ha2⟩)
        · exact Or.inl h
        · exact Or.inr ⟨d2, by simp [hd2], ha2⟩
      · rintro (h | ⟨d2, hd2, ha2⟩)
        · exact Or.inl h
        · rcases List.mem_cons.mp hd2 with rfl | hd2
          · rw [hact] at ha2; cases ha2
          · exact Or.inr ⟨d2, hd2, ha2⟩
    | markSent =>
      rw [ih]
      constructor
      · rintro (h | ⟨d2, hd2, ha2⟩)
        · exact Or.inl h
        · exact Or.inr ⟨d2, by simp [hd2], ha2⟩
      · rintro (h | ⟨d2, hd2, ha2⟩)
        · exact Or.inl h
        · rcases List.mem_cons.mp hd2 with rfl | hd2
          · rw [hact] at ha2; cases ha2
          · exact Or.inr ⟨d2, hd2, ha2⟩
    | armE e2 =>
      rw [ih]
      constructor
      · rintro (h | ⟨d2, hd2, ha2⟩)
        · rcases List.mem_append.mp h with h | h
          · exact Or.inl h
          · refine Or.inr ⟨d, by simp, ?_⟩
            rw [hact]
            simp only [List.mem_singleton] at h
            rw [h]
        · exact Or.inr ⟨d2, by simp [hd2], ha2⟩
      · rintro (h | ⟨d2, hd2, ha2⟩)
        · exact Or.inl (by simp [h])
        · rcases List.mem_cons.mp hd2 with rfl | hd2
          · rw [hact] at ha2
            cases ha2
            exact Or.inl (by simp)
          · exact Or.inr ⟨d2, hd2, ha2⟩

theorem reconcileTime_armE_tag (now : Int) (d : JobDoc) (s : String)
    (e : SchedEntry) (h : reconcileTime now d s = .armE e) : e.tag = d.id := by
  unfold reconcileTime at h
  split at h
  · split at h
    · split at h <;> cases h
    · cases h; rfl
  · cases h

theorem reconcileDoc_armE_tag (now : Int) (d : JobDoc) (e : SchedEntry)
    (h : reconcileDoc now d = .armE e) : e.tag = d.id := by
  unfold reconcileDoc at h
  split at h
  · cases h
  · split at h
    · rename_i n hi
      split at h
      · cases h; rfl
      · split at h
        · rename_i s hs
          exact reconcileTime_armE_tag now d s e h
        · cases h
    · split at h
      · rename_i s hs
        exact reconcileTime_armE_tag now d s e h
      · cases h

theorem reconcile_store_other (now : Int) (l docs : List JobDoc)
    (es : List SchedEntry) (i : Nat)
    (h : ∀ d ∈ l, d.id = i → reconcileDoc now d ≠ .markSent) :
    findOne (reconcile now l docs es).1 i = findOne docs i := by
  induction l generalizing docs es with
  | nil => rfl
  | cons d rest ih =>
    simp only [reconcile]
    cases hact : reconcileDoc now d with
    | skip => exact ih docs es (fun x hx => h x (by simp [hx]))
    | armE e2 => exact ih docs (es ++ [e2]) (fun x hx => h x (by simp [hx]))
    | markSent =>
      have hne : d.id ≠ i := fun hc => h d (by simp) hc hact
      have hstep := ih (updateFirst (fun x => x.id == d.id) markSentDoc docs) es
        (fun x hx => h x (by simp [hx]))
      rw [findOne_updateFirst_ne i d.id markSentDoc (fun _ => rfl) hne docs] at hstep
      exact hstep

theorem reconcile_store_mark (now : Int) (l1 l2 docs : List JobDoc)
    (d : JobDoc) (es : List SchedEntry)
    (hact : reconcileDoc now d = .markSent)
    (h1 : ∀ x ∈ l1, x.id ≠ d.id) (h2 : ∀ x ∈ l2, x.id ≠ d.id) :
    findOne (reconcile now (l1 ++ d :: l2) docs es).1 d.id
      = (findOne docs d.id).map markSentDoc := by
  induction l1 generalizing docs es with
  | nil =>
    simp only [List.nil_append, reconcile, hact]
    rw [reconcile_store_other now l2 _ es d.id (fun x hx hxi => absurd hxi (h2 x hx))]
    exact findOne_updateFirst (d.id) markSentDoc (fun _ => rfl) docs
  | cons a rest ih =>
    simp only [List.cons_append, reconcile]
    cases hacta : reconcileDoc now a with
    | skip => exact ih docs es (fun x hx => h1 x (by simp [hx]))
    | armE e2 => exact ih docs (es ++ [e2]) (fun x hx => h1 x (by simp [hx]))
    | markSent =>
      have hstep := ih (updateFirst (fun x => x.id == a.id) markSentDoc docs) es
        (fun x hx => h1 x (by simp [hx]))
      rw [findOne_updateFirst_ne d.id a.id markSentDoc (fun _ => rfl)
        (h1 a (by simp)) docs] at hstep
      exact hstep

theorem parseYear4_shape (cs : List Char) (z : Nat × List Char)
    (h : parseYear4 cs = some z) :
    ∃ a b c d rest, cs = a :: b :: c :: d :: rest ∧ isDig a = true ∧ z.2 = rest := by
  match cs with
  | [] => simp [parseYear4] at h
  | [a] => simp [parseYear4] at h
  | [a, b] => simp [parseYear4] at h
  | [a, b, c] => simp [parseYear4] at h
  | a :: b :: c :: d :: rest =>
    simp only [parseYear4] at h
    by_cases hcond : (isDig a && isDig b && isDig c && isDig d) = true
    · rw [if_pos hcond] at h
      simp only [Bool.and_eq_true] at hcond
      cases h
      exact ⟨a, b, c, d, rest, rfl, hcond.1.1.1, rfl⟩
    · rw [if_neg hcond] at h
      cases h

theorem lit_shape (ch : Char) (l l2 : List Char) (h : lit ch l = some l2) :
    l = ch :: l2 := by
  cases l with
  | nil => simp [lit] at h
  | cons c rest =>
    simp only [lit] at h
    by_cases hc : c = ch
    · rw [if_pos hc] at h
      cases h
      rw [hc]
    · rw [if_neg hc] at h
      cases h

/-- A string accepted by `strptime("%Y-%m-%d %H:%M:%S")` is never accepted by
`int(...)`: the `'-'` after the four year digits is not a digit. -/
theorem parseTimestamp_int_none (s : String) (dt : DT)
    (h : parseTimestamp s = some dt) : pyParseInt s = none := by
  unfold parseTimestamp at h
  cases h1 : parseYear4 s.toList with
  | none => rw [h1] at h; simp at h
  | some z =>
    obtain ⟨a, b, c, d, rest, hshape, hda, hz2⟩ := parseYear4_shape _ _ h1
    obtain ⟨y, cs1⟩ := z
    rw [h1] at h
    simp only [Option.bind_eq_bind, Option.some_bind] at h
    simp only at hz2
    subst hz2
    cases h2 : lit '-' cs1 with
    | none => rw [h2] at h; simp at h
    | some rest2 =>
      have hrest : cs1 = '-' :: rest2 := lit_shape '-' cs1 rest2 h2
      have ha1 : a ≠ '+' := by
        intro hc
        rw [hc] at hda
        exact absurd hda (by decide)
      have ha2 : a ≠ '-' := by
        intro hc
        rw [hc] at hda
        exact absurd hda (by decide)
      have hall : allDigits (a :: b :: c :: d :: '-' :: rest2) = false := by
        simp [allDigits, isDig]
      have hfull : s.data = a :: b :: c :: d :: '-' :: rest2 := by
        rw [show s.data = s.toList from rfl, hshape, hrest]
      simp [pyParseInt, hfull, ha1, ha2, hall]

/-! ## The claims -/

/-- C9: a principal with an active authoring session created in chat `C` who
sends a message in another chat `D ≠ C` is ignored by `handle_conversation`:
sessions, store and scheduler are unchanged and no prompt is emitted. -/
theorem conversation_other_chat_ignored (now p C D : Int) (msg : Msg)
    (states : UserStates) (store : Store) (sched : List SchedEntry)
    (sd : UserState) (hs : states p = some sd) (hc : sd.chat_id = C)
    (hne : D ≠ C) :
    handle_conversation now p D msg states store sched
      = ⟨states, store, sched, none⟩ := by
  unfold handle_conversation
  rw [hs]
  have hguard : sd.chat_id ≠ D := by rw [hc]; exact fun hcontra => hne hcontra.symm
  simp only [ne_eq, hguard, not_false_eq_true, if_true]

def c9states : UserStates :=
  fun u => if u = 1 then some ⟨5, .SCHEDULE_NAME, freshDraft 5⟩ else none

theorem conversation_other_chat_ignored_witness :
    handle_conversation 0 1 6 (textMsg "hello") c9states ⟨[], 0⟩ []
      = ⟨c9states, ⟨[], 0⟩, [], none⟩ :=
  conversation_other_chat_ignored 0 1 5 6 (textMsg "hello") c9states ⟨[], 0⟩ []
    ⟨5, .SCHEDULE_NAME, freshDraft 5⟩ (by decide) rfl (by decide)

theorem conv_step_states_frame (now p C : Int) (msg : Msg) (sd : UserState)
    (states : UserStates) (store : Store) (sched : List SchedEntry)
    (q : Int) (hq : q ≠ p) :
    (conv_step now p C msg sd states store sched).states q = states q := by
  unfold conv_step
  split <;> dsimp only
  all_goals repeat' split
  all_goals simp [setState, hq]

/-- C10: any conversation input and any `/cancel` from principal `p` mutate
at most `p`'s entry of the session map: every other principal's session is
unchanged. -/
theorem authoring_frame_other_users (now p C : Int) (msg : Msg)
    (states : UserStates) (store : Store) (sched : List SchedEntry)
    (q : Int) (hq : q ≠ p) :
    (handle_conversation now p C msg states store sched).states q = states q
    ∧ (handle_cancel p states).1 q = states q := by
  constructor
  · unfold handle_conversation
    cases hsp : states p with
    | none => rfl
    | some sd =>
      by_cases hg : sd.chat_id = C
      · simp only [ne_eq, hg, not_true_eq_false, Bool.false_eq_true, if_false]
        exact conv_step_states_frame now p C msg sd states store sched q hq
      · simp only [ne_eq, hg, not_false_eq_true, if_true]
  · unfold handle_cancel
    cases hsp : states p with
    | none => rfl
    | some sd => exact setState_ne states p none q hq

theorem authoring_frame_other_users_witness :
    (handle_conversation 0 1 5 (textMsg "hello") c9states ⟨[], 0⟩ []).states 2
        = c9states 2
    ∧ (handle_cancel 1 c9states).1 2 = c9states 2 :=
  authoring_frame_other_users 0 1 5 (textMsg "hello") c9states ⟨[], 0⟩ [] 2
    (by decide)

/-- C8: stopping a schedule by an id with no matching document scoped to the
requesting chat (unknown, already stopped, or belonging to another chat) is a
benign no-op: the handler answers "not found", deletes nothing and clears no
scheduler entry.  The match-and-delete itself is the single atomic
`delete_one` filtered by id and chat, modelled by `deleteFirst`. -/
theorem stop_unknown_noop (chatId : Int) (msgId : Nat) (store : Store)
    (sched : List SchedEntry)
    (h : ∀ d ∈ store.docs, ¬(d.id = msgId ∧ d.chat_id = chatId)) :
    handle_button_click_stop true chatId msgId store sched
      = ⟨store, sched, .notFound⟩ := by
  unfold handle_button_click_stop
  have hall : ∀ d ∈ store.docs,
      (d.id == msgId && d.chat_id == chatId) = false := by
    intro d hd
    have := h d hd
    by_cases h1 : d.id = msgId
    · have h2 : d.chat_id ≠ chatId := fun hc => this ⟨h1, hc⟩
      simp [h1, h2]
    · simp [h1]
  rw [deleteFirst_no_match _ _ hall]
  rfl

theorem stop_unknown_noop_witness :
    handle_button_click_stop true 99 5
        ⟨[⟨1, 42, some "N", some "T", none, some 300, none, none, none, [],
          none, none⟩], 2⟩ []
      = ⟨⟨[⟨1, 42, some "N", some "T", none, some 300, none, none, none, [],
          none, none⟩], 2⟩, [], .notFound⟩ :=
  stop_unknown_noop 99 5 _ [] (by decide)

/-- A session of principal 7 in chat 99 sitting in the BUTTONS step with an
empty button list. -/
def c5session : UserState := ⟨99, .BUTTONS, freshDraft 99⟩

def c5states : UserStates := fun u => if u = 7 then some c5session else none

/-- C5: in the BUTTONS state, `"Join|ftp://x"` is rejected with the
scheme-validity error (session stays in BUTTONS, no button appended, nothing
persisted); `"Join|https://example.com"` is appended to the draft's buttons
without advancing the state; `"Joinhttps://example.com"` (no `'|'`) is
rejected with the generic format error, not a URL error. -/
theorem button_validation_cases :
    ((handle_conversation 0 7 99 (textMsg "Join|ftp://x") c5states ⟨[], 0⟩ []).resp
        = some Resp.badScheme
      ∧ (handle_conversation 0 7 99 (textMsg "Join|ftp://x") c5states ⟨[], 0⟩ []).states 7
        = some c5session
      ∧ (handle_conversation 0 7 99 (textMsg "Join|ftp://x") c5states ⟨[], 0⟩ []).store
        = ⟨[], 0⟩)
    ∧ ((handle_conversation 0 7 99 (textMsg "Join|https://example.com") c5states
          ⟨[], 0⟩ []).resp = some Resp.buttonAdded
      ∧ (handle_conversation 0 7 99 (textMsg "Join|https://example.com") c5states
          ⟨[], 0⟩ []).states 7
        = some ⟨99, .BUTTONS,
            {freshDraft 99 with buttons := [⟨"Join", "https://example.com"⟩]}⟩
      ∧ (handle_conversation 0 7 99 (textMsg "Join|https://example.com") c5states
          ⟨[], 0⟩ []).store = ⟨[], 0⟩)
    ∧ ((handle_conversation 0 7 99 (textMsg "Joinhttps://example.com") c5states
          ⟨[], 0⟩ []).resp = some Resp.badButtonFormat
      ∧ (handle_conversation 0 7 99 (textMsg "Joinhttps://example.com") c5states
          ⟨[], 0⟩ []).states 7 = some c5session
      ∧ (handle_conversation 0 7 99 (textMsg "Joinhttps://example.com") c5states
          ⟨[], 0⟩ []).store = ⟨[], 0⟩) := by
  decide

/-- A session of principal 7 in chat 99 at the SCHEDULE (INTERVAL) step. -/
def c1session : UserState :=
  ⟨99, .INTERVAL,
    {freshDraft 99 with schedule_name := some "N", message_text := some "T"}⟩

def c1states : UserStates := fun u => if u = 7 then some c1session else none

/-- C1 (code bug): finalizing a one-shot job at `now` = 2025-06-01
12:00:00.000000 with `fireAt` = 2025-06-05 14:00:00 succeeds, but the armed
entry is a daily job at the time-of-day 14:00:00 whose `nextFire` is
2025-06-01 14:00:00 — the date part of `fireAt` is discarded by
`schedule.every().day.at(time_str.split()[1])`, so `nextFire ≠ fireAt`. -/
theorem oneshot_nextfire_drops_date :
    (handle_conversation (toMicros ⟨2025, 6, 1, 12, 0, 0⟩) 7 99
        (textMsg "2025-06-05 14:00:00") c1states ⟨[], 0⟩ []).resp
      = some Resp.scheduledOneShot
    ∧ (handle_conversation (toMicros ⟨2025, 6, 1, 12, 0, 0⟩) 7 99
        (textMsg "2025-06-05 14:00:00") c1states ⟨[], 0⟩ []).sched
      = [⟨0, 99, .dailyAt (todMicros ⟨2025, 6, 5, 14, 0, 0⟩),
          toMicros ⟨2025, 6, 1, 14, 0, 0⟩⟩]
    ∧ toMicros ⟨2025, 6, 1, 14, 0, 0⟩ ≠ toMicros ⟨2025, 6, 5, 14, 0, 0⟩ := by
  decide

/-- C6 (counterexample): at `now` = 2025-06-05 14:00:00.000000 (microsecond
0) the input `"2025-06-05 14:00:00"` — a timestamp equal to the current
instant, hence not strictly in the future — is ACCEPTED: the job is inserted
and armed and the session destroyed, where the claim requires rejection. -/
theorem schedule_equal_now_accepted :
    (handle_conversation (toMicros ⟨2025, 6, 5, 14, 0, 0⟩) 7 99
        (textMsg "2025-06-05 14:00:00") c1states ⟨[], 0⟩ []).resp
      = some Resp.scheduledOneShot
    ∧ (handle_conversation (toMicros ⟨2025, 6, 5, 14, 0, 0⟩) 7 99
        (textMsg "2025-06-05 14:00:00") c1states ⟨[], 0⟩ []).states 7 = none
    ∧ (handle_conversation (toMicros ⟨2025, 6, 5, 14, 0, 0⟩) 7 99
        (textMsg "2025-06-05 14:00:00") c1states ⟨[], 0⟩ []).store.docs.length
      = 1 := by
  decide

/-- A persisted unconsumed one-shot job and its armed entry. -/
def c2doc : JobDoc :=
  ⟨1, 99, some "N", some "T", some "2025-06-05 14:00:00", none, none, none,
    none, [], none, none⟩

def c2store : Store := ⟨[c2doc], 2⟩

def c2entry : SchedEntry :=
  armDaily (toMicros ⟨2025, 6, 1, 12, 0, 0⟩) (todMicros ⟨2025, 6, 5, 14, 0, 0⟩) 1 99

/-- C2 (counterexample): when the entry for the unconsumed one-shot job fires
and the transport send fails, the store is unchanged (the job stays
unconsumed) but the scheduler entry is REMOVED (`runJob` returns no entry),
where the claim requires it to remain armed for retry on subsequent ticks. -/
theorem oneshot_failed_send_entry_removed :
    (runJob (toMicros ⟨2025, 6, 5, 14, 0, 0⟩) c2entry c2store
        ⟨500, [], true, false⟩).1 = none
    ∧ (runJob (toMicros ⟨2025, 6, 5, 14, 0, 0⟩) c2entry c2store
        ⟨500, [], true, false⟩).2.1 = c2store := by
  decide

theorem deliverAsync_failSend (chatId : Int) (msgId : Nat) (store : Store)
    (tr : Transport) (doc : JobDoc)
    (hfind : findOne store.docs msgId = some doc) (hfail : tr.failSend = true) :
    (deliverAsync chatId msgId store tr).1 = store := by
  unfold deliverAsync
  simp only [hfind]
  cases hls : doc.last_sent_telegram_message_id with
  | none => split_ifs <;> simp_all
  | some lid => split_ifs <;> simp_all

/-- C2 (amended): when delivery of job `doc` fails at the send step, the
store is unchanged — a one-shot job stays unconsumed, `lastDeliveredInstanceId`
is not touched — and the entry is kept (re-armed) exactly when the job is
recurring: a one-shot job's entry is removed at that firing even though the
send failed, so it is not retried in-process. -/
theorem failed_send_state_preserved (now : Int) (e : SchedEntry) (store : Store)
    (tr : Transport) (doc : JobDoc)
    (hfind : findOne store.docs e.tag = some doc) (hfail : tr.failSend = true) :
    (runJob now e store tr).2.1 = store
    ∧ ((runJob now e store tr).1.isSome ↔ intervalTruthy doc = true) := by
  have hda := deliverAsync_failSend e.chatId e.tag store tr doc hfind hfail
  constructor
  · unfold runJob send_scheduled_message
    dsimp only
    split <;> simp [hda]
  · unfold runJob send_scheduled_message
    dsimp only
    rw [hda, hfind]
    by_cases ht : intervalTruthy doc = true
    · simp [ht]
    · simp [ht]

def c2wdoc : JobDoc :=
  ⟨1, 99, some "R", some "T", none, some 300, none, none, none, [], none, none⟩

theorem failed_send_state_preserved_witness :
    (runJob 0 (armEvery 0 300 1 99) ⟨[c2wdoc], 2⟩ ⟨500, [], true, false⟩).2.1
        = ⟨[c2wdoc], 2⟩
    ∧ ((runJob 0 (armEvery 0 300 1 99) ⟨[c2wdoc], 2⟩ ⟨500, [], true, false⟩).1.isSome
        ↔ intervalTruthy c2wdoc = true) :=
  failed_send_state_preserved 0 (armEvery 0 300 1 99) ⟨[c2wdoc], 2⟩
    ⟨500, [], true, false⟩ c2wdoc (by decide) rfl

/-- C4: (1) whenever `lastDeliveredInstanceId` is recorded, the delivery
first attempts to delete that instance — a deletion failure is swallowed and
the new instance is still sent, the new send being appended either way; (2)
delivering a job twice in a row from a clean destination leaves exactly one
live instance there. -/
theorem delete_then_resend (store : Store) (tr : Transport) (chat : Int)
    (i : Nat) (doc : JobDoc) (hfind : findOne store.docs i = some doc)
    (hlive : (doc.sent = some true && !intervalTruthy doc) = false)
    (hmedia : (mediaTruthy doc && !fileIdNumeric doc) = false)
    (hsend : tr.failSend = false) :
    (∀ lid, doc.last_sent_telegram_message_id = some lid →
      (deliverAsync chat i store tr).2.live =
        (if tr.failDelete = true then tr.live
          else tr.live.filter (fun q => !(q.1 = chat && q.2 = lid)))
          ++ [(chat, tr.nextMsgId)])
    ∧ (doc.last_sent_telegram_message_id = none → tr.live = [] →
        tr.failDelete = false → intervalTruthy doc = true →
        (deliverAsync chat i (deliverAsync chat i store tr).1
            (deliverAsync chat i store tr).2).2.live
          = [(chat, tr.nextMsgId + 1)]) := by
  constructor
  · intro lid hlid
    by_cases hfd : tr.failDelete = true
    · simp [deliverAsync, hfind, hlid, hlive, hmedia, hsend, hfd]
    · simp [deliverAsync, hfind, hlid, hlive, hmedia, hsend, hfd]
  · intro hnone hl0 hfd htruthy
    have hr1 : deliverAsync chat i store tr
        = (⟨updateFirst (fun d => d.id == i)
              (fun d => {d with last_sent_telegram_message_id := some tr.nextMsgId})
              store.docs, store.nextId⟩,
           {tr with
              nextMsgId := tr.nextMsgId + 1,
              live := tr.live ++ [(chat, tr.nextMsgId)]}) := by
      unfold deliverAsync
      simp [hfind, hnone, hlive, hmedia, hsend, htruthy]
    have hfind2 : findOne (updateFirst (fun d => d.id == i)
        (fun d => {d with last_sent_telegram_message_id := some tr.nextMsgId})
        store.docs) i
        = some {doc with last_sent_telegram_message_id := some tr.nextMsgId} := by
      rw [findOne_updateFirst i
        (fun d => {d with last_sent_telegram_message_id := some tr.nextMsgId})
        (fun d => rfl) store.docs, hfind]
      rfl
    rw [hr1]
    unfold deliverAsync
    have htr2 : intervalTruthy
        {doc with last_sent_telegram_message_id := some tr.nextMsgId} = true :=
      htruthy
    have hlive2 : ({doc with last_sent_telegram_message_id := some tr.nextMsgId}.sent
          = some true
        && !intervalTruthy
          {doc with last_sent_telegram_message_id := some tr.nextMsgId}) = false :=
      hlive
    have hmedia2 : (mediaTruthy
          {doc with last_sent_telegram_message_id := some tr.nextMsgId}
        && !fileIdNumeric
          {doc with last_sent_telegram_message_id := some tr.nextMsgId}) = false :=
      hmedia
    simp [hfind2, hlive2, hmedia2, htr2, hsend, hfd, hl0]

/-- C4 witness instance: a recurring job delivered twice from a clean
destination leaves exactly the second instance live. -/
def c4doc : JobDoc :=
  ⟨1, 99, some "R", some "T", none, some 300, none, none, none, [], none, none⟩

def c4store : Store := ⟨[c4doc], 2⟩

def c4tr : Transport := ⟨500, [], false, false⟩

theorem delete_then_resend_witness :
    (deliverAsync 99 1 (deliverAsync 99 1 c4store c4tr).1
        (deliverAsync 99 1 c4store c4tr).2).2.live = [(99, 501)] :=
  (delete_then_resend c4store c4tr 99 1 c4doc (by decide) (by decide) (by decide)
    rfl).2 rfl rfl rfl (by decide)

/-- C3: reconciliation on startup, for every store state and every fetched
pending document `d` (unique ids, nonzero chat): a recurring job is re-armed
with `nextFire = now + intervalSeconds`; a pending one-shot job whose
`fireAt` is in the past is marked consumed, with no scheduler entry armed for
it (and `load_and_reschedule_jobs` performs no transport send at all, so
nothing is delivered); a pending one-shot job whose `fireAt` is not in the
past is armed. -/
theorem reconcile_behavior (now : Int) (st : Store) (d : JobDoc)
    (hmem : d ∈ st.docs) (hnd : (st.docs.map JobDoc.id).Nodup)
    (hchat : d.chat_id ≠ 0) :
    (∀ n, d.interval_seconds = some n → 0 < n →
        armEvery now n d.id d.chat_id ∈ (load_and_reschedule_jobs now st).2)
    ∧ (∀ s dt, d.interval_seconds = none → d.schedule_time = some s →
        parseTimestamp s = some dt → toMicros dt < now → d.sent ≠ some true →
        (findOne (load_and_reschedule_jobs now st).1.docs d.id
            = some (markSentDoc d)
          ∧ ∀ e ∈ (load_and_reschedule_jobs now st).2, e.tag ≠ d.id))
    ∧ (∀ s dt, d.interval_seconds = none → d.schedule_time = some s →
        parseTimestamp s = some dt → ¬(toMicros dt < now) → d.sent ≠ some true →
        armDaily now (todMicros dt) d.id d.chat_id
          ∈ (load_and_reschedule_jobs now st).2) := by
  refine ⟨?_, ?_, ?_⟩
  · intro n hn hpos
    have hq : matchesQuery d = true := by simp [matchesQuery, hn]
    have hmemf : d ∈ st.docs.filter matchesQuery := List.mem_filter.mpr ⟨hmem, hq⟩
    have hact : reconcileDoc now d = .armE (armEvery now n d.id d.chat_id) := by
      simp [reconcileDoc, hchat, hn, hpos]
    exact (reconcile_entries_mem now _ st.docs [] _).mpr (Or.inr ⟨d, hmemf, hact⟩)
  · intro s dt hnone hs hp hlt hsent
    have hq : matchesQuery d = true := by simp [matchesQuery, hs, hsent]
    have hmemf : d ∈ st.docs.filter matchesQuery := List.mem_filter.mpr ⟨hmem, hq⟩
    have hact : reconcileDoc now d = .markSent := by
      simp [reconcileDoc, hchat, hnone, hs, reconcileTime, hp, hlt, hsent]
    have hndf : ((st.docs.filter matchesQuery).map JobDoc.id).Nodup :=
      hnd.sublist ((List.filter_sublist st.docs).map JobDoc.id)
    constructor
    · obtain ⟨l1, l2, hsplit⟩ := List.append_of_mem hmemf
      rw [hsplit] at hndf
      simp only [List.map_append, List.map_cons] at hndf
      have hnodup := List.nodup_append.mp hndf
      have h1 : ∀ x ∈ l1, x.id ≠ d.id := by
        intro x hx hcontra
        exact hnodup.2.2 (List.mem_map_of_mem JobDoc.id hx)
          (by rw [hcontra]; exact List.mem_cons_self _ _)
      have h2 : ∀ x ∈ l2, x.id ≠ d.id := by
        intro x hx hcontra
        exact (List.nodup_cons.mp hnodup.2.1).1
          (hcontra ▸ List.mem_map_of_mem JobDoc.id hx)
      have hstore := reconcile_store_mark now l1 l2 st.docs d [] hact h1 h2
      rw [← hsplit] at hstore
      rw [findOne_of_mem_nodup st.docs d hmem hnd] at hstore
      exact hstore
    · intro e he hcontra
      rcases (reconcile_entries_mem now _ st.docs [] e).mp he with h | ⟨d2, hd2, hact2⟩
      · simp at h
      · have htag : e.tag = d2.id := reconcileDoc_armE_tag now d2 e hact2
        have hd2mem : d2 ∈ st.docs := (List.mem_filter.mp hd2).1
        have hdd : d2 = d :=
          List.inj_on_of_nodup_map hnd hd2mem hmem (by rw [← htag, hcontra])
        rw [hdd, hact] at hact2
        cases hact2
  · intro s dt hnone hs hp hge hsent
    have hq : matchesQuery d = true := by simp [matchesQuery, hs, hsent]
    have hmemf : d ∈ st.docs.filter matchesQuery := List.mem_filter.mpr ⟨hmem, hq⟩
    have hact : reconcileDoc now d
        = .armE (armDaily now (todMicros dt) d.id d.chat_id) := by
      simp [reconcileDoc, hchat, hnone, hs, reconcileTime, hp, hge]
    exact (reconcile_entries_mem now _ st.docs [] _).mpr (Or.inr ⟨d, hmemf, hact⟩)

/-- C3 witness scenario: one pending recurring job and one past-due one-shot
job; on recovery the recurring job is re-armed and the one-shot job marked
consumed with no entry armed for it. -/
def c3docR : JobDoc :=
  ⟨1, 99, some "R", some "T", none, some 300, none, none, none, [], none, none⟩

def c3docO : JobDoc :=
  ⟨2, 99, some "O", some "T", some "2025-06-01 10:00:00", none, none, none,
    none, [], none, none⟩

def c3store : Store := ⟨[c3docR, c3docO], 3⟩

def c3now : Int := toMicros ⟨2025, 6, 1, 12, 0, 0⟩

theorem reconcile_behavior_witness :
    armEvery c3now 300 1 99 ∈ (load_and_reschedule_jobs c3now c3store).2
    ∧ (findOne (load_and_reschedule_jobs c3now c3store).1.docs 2
        = some (markSentDoc c3docO)
      ∧ ∀ e ∈ (load_and_reschedule_jobs c3now c3store).2, e.tag ≠ 2) :=
  ⟨(reconcile_behavior c3now c3store c3docR (by decide) (by decide)
      (by decide)).1 300 rfl (by decide),
   (reconcile_behavior c3now c3store c3docO (by decide) (by decide)
      (by decide)).2.1 "2025-06-01 10:00:00" ⟨2025, 6, 1, 10, 0, 0⟩ rfl rfl
      (by decide) (by decide) (by decide)⟩

/-- C6 (amended): in the SCHEDULE step, an input parsing as the fixed-format
absolute timestamp is rejected (past-error re-prompt, session / store /
scheduler unchanged) iff the timestamp is strictly in the PAST at the time of
input; a timestamp equal to the current instant is accepted. -/
theorem schedule_past_reject_iff (now p C : Int) (msg : Msg)
    (states : UserStates) (store : Store) (sched : List SchedEntry)
    (sd : UserState) (dt : DT) (hs : states p = some sd) (hchat : sd.chat_id = C)
    (hst : sd.state = .INTERVAL)
    (hparse : parseTimestamp (pyStrip (msg.text.getD "")) = some dt) :
    (handle_conversation now p C msg states store sched
        = ⟨states, store, sched, some Resp.pastTime⟩)
      ↔ toMicros dt < now := by
  have hint : pyParseInt (pyStrip (msg.text.getD "")) = none :=
    parseTimestamp_int_none _ _ hparse
  obtain ⟨cid, cst, data⟩ := sd
  simp only at hchat hst
  subst hchat
  subst hst
  unfold handle_conversation
  rw [hs]
  simp only [ne_eq, not_true_eq_false, Bool.false_eq_true, if_false]
  unfold conv_step
  simp only [hint, hparse]
  constructor
  · intro heq
    by_contra hge
    rw [if_neg hge] at heq
    cases hpt : parseTod ((pySplitWs (pyStrip (msg.text.getD ""))).getD 1 "") with
    | some tod =>
      rw [hpt] at heq
      have hnext := congrArg (fun r => r.store.nextId) heq
      simp only [insertOne] at hnext
      omega
    | none =>
      rw [hpt] at heq
      have hnext := congrArg (fun r => r.store.nextId) heq
      simp only [insertOne] at hnext
      omega
  · intro hlt
    rw [if_pos hlt]

def c6states : UserStates :=
  fun u => if u = 7 then some ⟨99, .INTERVAL, freshDraft 99⟩ else none

theorem schedule_past_reject_iff_witness :
    handle_conversation (toMicros ⟨2025, 6, 5, 14, 0, 1⟩) 7 99
        (textMsg "2025-06-05 14:00:00") c6states ⟨[], 0⟩ []
      = ⟨c6states, ⟨[], 0⟩, [], some Resp.pastTime⟩ :=
  (schedule_past_reject_iff (toMicros ⟨2025, 6, 5, 14, 0, 1⟩) 7 99
    (textMsg "2025-06-05 14:00:00") c6states ⟨[], 0⟩ []
    ⟨99, .INTERVAL, freshDraft 99⟩ ⟨2025, 6, 5, 14, 0, 0⟩ (by decide) rfl rfl
    (by decide)).mpr (by decide)

/-- C7: for every valid `(name, text, schedule)` authoring input — nonempty
name and text after stripping, and a schedule input that is a positive
integer or a strictly future timestamp in the fixed zero-padded format — the
authoring sequence (media and buttons skipped) performs exactly one insert,
yielding a job with no `sent` flag (unconsumed) and the store-assigned id,
arms exactly one scheduler entry tagged with that id, and destroys the
principal's session. -/
theorem authoring_completion (now p C : Int) (name text schedIn : String)
    (states : UserStates) (store : Store) (sched : List SchedEntry)
    (hname : pyStrip name ≠ "") (htext : pyStrip text ≠ "")
    (hvalid : validScheduleInput now schedIn = true) :
    ((runMsgs now p C
        [textMsg name, textMsg text, textMsg "skip", textMsg "skip",
          textMsg schedIn]
        (handle_schedule_message_start true p C states) store sched).states p
      = none)
    ∧ (∃ doc : JobDoc,
        (runMsgs now p C
          [textMsg name, textMsg text, textMsg "skip", textMsg "skip",
            textMsg schedIn]
          (handle_schedule_message_start true p C states) store sched).store.docs
          = store.docs ++ [doc]
        ∧ doc.sent = none ∧ doc.id = store.nextId)
    ∧ (∃ e : SchedEntry,
        (runMsgs now p C
          [textMsg name, textMsg text, textMsg "skip", textMsg "skip",
            textMsg schedIn]
          (handle_schedule_message_start true p C states) store sched).sched
          = sched ++ [e]
        ∧ e.tag = store.nextId) := by
  have hskip : pyLower (pyStrip "skip") = "skip" := by decide
  have hstart : handle_schedule_message_start true p C states
      = setState states p (some ⟨C, .SCHEDULE_NAME, freshDraft C⟩) := by
    simp [handle_schedule_message_start]
  have h1 : handle_conversation now p C (textMsg name)
      (setState states p (some ⟨C, .SCHEDULE_NAME, freshDraft C⟩)) store sched
      = ⟨setState (setState states p (some ⟨C, .SCHEDULE_NAME, freshDraft C⟩)) p
          (some ⟨C, .MESSAGE_TEXT,
            {freshDraft C with schedule_name := some (pyStrip name)}⟩),
         store, sched, some Resp.textPrompt⟩ := by
    simp [handle_conversation, conv_step, textMsg, hname]
  generalize hS1 : setState (setState states p (some ⟨C, .SCHEDULE_NAME, freshDraft C⟩)) p
      (some ⟨C, .MESSAGE_TEXT, {freshDraft C with schedule_name := some (pyStrip name)}⟩) = S1 at h1
  have h2 : handle_conversation now p C (textMsg text) S1 store sched
      = ⟨setState S1 p
          (some ⟨C, .MEDIA,
            {freshDraft C with schedule_name := some (pyStrip name),
                               message_text := some (pyStrip text)}⟩),
         store, sched, some Resp.mediaPrompt⟩ := by
    rw [← hS1]
    simp [handle_conversation, conv_step, textMsg, htext, setState]
  generalize hS2 : setState S1 p
      (some ⟨C, .MEDIA,
        {freshDraft C with schedule_name := some (pyStrip name),
                           message_text := some (pyStrip text)}⟩) = S2 at h2
  have hmem2 : S2 p = some ⟨C, .MEDIA,
      {freshDraft C with schedule_name := some (pyStrip name),
                         message_text := some (pyStrip text)}⟩ := by
    rw [← hS2]; simp
  have h3 : handle_conversation now p C (textMsg "skip") S2 store sched
      = ⟨setState S2 p
          (some ⟨C, .BUTTONS,
            {freshDraft C with schedule_name := some (pyStrip name),
                               message_text := some (pyStrip text)}⟩),
         store, sched, some Resp.buttonsPrompt⟩ := by
    simp [handle_conversation, hmem2, conv_step, textMsg, hskip]
  generalize hS3 : setState S2 p
      (some ⟨C, .BUTTONS,
        {freshDraft C with schedule_name := some (pyStrip name),
                           message_text := some (pyStrip text)}⟩) = S3 at h3
  have hmem3 : S3 p = some ⟨C, .BUTTONS,
      {freshDraft C with schedule_name := some (pyStrip name),
                         message_text := some (pyStrip text)}⟩ := by
    rw [← hS3]; simp
  have h4 : handle_conversation now p C (textMsg "skip") S3 store sched
      = ⟨setState S3 p
          (some ⟨C, .INTERVAL,
            {freshDraft C with schedule_name := some (pyStrip name),
                               message_text := some (pyStrip text)}⟩),
         store, sched, some Resp.intervalPrompt⟩ := by
    simp [handle_conversation, hmem3, conv_step, textMsg, hskip]
  generalize hS4 : setState S3 p
      (some ⟨C, .INTERVAL,
        {freshDraft C with schedule_name := some (pyStrip name),
                           message_text := some (pyStrip text)}⟩) = S4 at h4
  have hmem4 : S4 p = some ⟨C, .INTERVAL,
      {freshDraft C with schedule_name := some (pyStrip name),
                         message_text := some (pyStrip text)}⟩ := by
    rw [← hS4]; simp
  simp only [runMsgs, hstart, h1, h2, h3, h4]
  -- final step: the SCHEDULE input
  unfold validScheduleInput at hvalid
  unfold handle_conversation
  rw [hmem4]
  simp only [ne_eq, not_true_eq_false, Bool.false_eq_true, if_false]
  unfold conv_step
  cases hpi : pyParseInt (pyStrip schedIn) with
  | some n =>
    rw [hpi] at hvalid
    simp only [decide_eq_true_eq] at hvalid
    simp only [textMsg, Option.getD_some, hpi]
    rw [if_neg (by omega)]
    refine ⟨by simp,
      ⟨⟨store.nextId, C, some (pyStrip name), some (pyStrip text), none, some n,
        none, none, none, [], none, none⟩, ?_, rfl, rfl⟩,
      ⟨armEvery now n store.nextId C, rfl, rfl⟩⟩
    simp [insertOne, freshDraft]
  | none =>
    rw [hpi] at hvalid
    cases hpt : parseTimestamp (pyStrip schedIn) with
    | none => rw [hpt] at hvalid; cases hvalid
    | some dt =>
      rw [hpt] at hvalid
      simp only [Bool.and_eq_true, decide_eq_true_eq, Option.isSome_iff_exists] at hvalid
      obtain ⟨hlt, tod, htod⟩ := hvalid
      simp only [textMsg, Option.getD_some, hpi, hpt]
      rw [if_neg (by omega), htod]
      refine ⟨by simp,
        ⟨⟨store.nextId, C, some (pyStrip name), some (pyStrip text),
          some (pyStrip schedIn), none, none, none, none, [], none, none⟩,
          ?_, rfl, rfl⟩,
        ⟨armDaily now tod store.nextId C, rfl, rfl⟩⟩
      simp [insertOne, freshDraft]

theorem authoring_completion_witness :
    ((runMsgs 0 1 5 [textMsg "Daily", textMsg "Hi", textMsg "skip",
        textMsg "skip", textMsg "300"]
        (handle_schedule_message_start true 1 5 (fun _ => none)) ⟨[], 0⟩ []).states 1
      = none)
    ∧ (∃ doc : JobDoc,
        (runMsgs 0 1 5 [textMsg "Daily", textMsg "Hi", textMsg "skip",
          textMsg "skip", textMsg "300"]
          (handle_schedule_message_start true 1 5 (fun _ => none)) ⟨[], 0⟩ []).store.docs
          = [] ++ [doc]
        ∧ doc.sent = none ∧ doc.id = 0)
    ∧ (∃ e : SchedEntry,
        (runMsgs 0 1 5 [textMsg "Daily", textMsg "Hi", textMsg "skip",
          textMsg "skip", textMsg "300"]
          (handle_schedule_message_start true 1 5 (fun _ => none)) ⟨[], 0⟩ []).sched
          = [] ++ [e]
        ∧ e.tag = 0) :=
  authoring_completion 0 1 5 "Daily" "Hi" "300" (fun _ => none) ⟨[], 0⟩ []
    (by decide) (by decide) (by decide)

end Bot
